import Mathlib

/-!
Shallow embedding of the Pet-Sense appointment-slot booking and availability
core (the `Availability` / `Reservation` Mongoose models, the
`/api/availability` POST handler, the `/api/reservations` POST handler and the
`/api/reservations/[id]` PUT handler), together with proofs about the
embedded operations.

Modelling conventions, fixed once for the whole file:
* Wall-clock times of day ("HH:MM" strings in the source) are minutes since
  midnight (`Nat`); `hhmm` recovers the source's string form.  Calendar dates
  (normalised to midnight in the source, with a `[day, day+1)` range query)
  are day numbers (`Nat`), so the source's day-range query becomes equality
  on the day number; the weekday of a date is its day number mod 7.
* Mongo `ObjectId`s are `Nat`.  An absent `reservationId` and a
  `reservationId` explicitly set to `null` are both `Option.none` (the source
  only ever tests the field for truthiness).
* `findOne` / `findById` return the first matching document of the stored
  list; `updateOne` / a mutated document's `save()` rewrite the first
  matching document in place (`updateFirst` below).
* The HTTP/auth boundary (JWT decoding, `User` lookup and `userType`
  checking) is outside the modelled core: handlers receive the calling
  principal's id and role as arguments.
-/

namespace PetSense

/-- Render a minutes-since-midnight value in the source's "HH:MM" form. -/
def hhmm (t : Nat) : String :=
  (if t / 60 < 10 then "0" else "") ++ toString (t / 60) ++ ":"
    ++ (if t % 60 < 10 then "0" else "") ++ toString (t % 60)

/-- One entry of `AvailabilitySchema.timeSlots` (src/models/Reservation.ts). -/
structure TimeSlot where
  startTime : Nat
  endTime : Nat
  isAvailable : Bool
  reservationId : Option Nat := none
deriving DecidableEq, Repr

/-- One `Availability` document: a doctor's calendar day
(src/models/Reservation.ts, `AvailabilitySchema`). -/
structure AvailabilityDay where
  id : Nat
  doctorId : Nat
  date : Nat
  timeSlots : List TimeSlot
  isWorkingDay : Bool
  specialNotes : String := ""
deriving DecidableEq, Repr

/-- Reservation status enum (src/models/Reservation.ts). -/
inductive RStatus where
  | pending
  | confirmed
  | inProgress
  | completed
  | cancelled
  | noShow
deriving DecidableEq, Repr

/-- Payment status enum inside `fees`. -/
inductive PayStatus where
  | pending
  | paid
  | refunded
deriving DecidableEq, Repr

/-- The `fees` sub-document of a Reservation. -/
structure Fees where
  consultationFee : Nat
  additionalCharges : Nat
  totalAmount : Nat
  paymentStatus : PayStatus
deriving DecidableEq, Repr

/-- The `cancellation` sub-document of a Reservation. -/
structure Cancellation where
  cancelledBy : Nat
  cancelledAt : Nat
  reason : String
deriving DecidableEq, Repr

/-- A `Reservation` document (src/models/Reservation.ts); only the fields the
booking/cancellation/status logic reads or writes are modelled. -/
structure Reservation where
  id : Nat
  userId : Nat
  doctorId : Nat
  petId : Nat
  appointmentDate : Nat
  appointmentTime : Nat
  status : RStatus
  fees : Fees
  cancellation : Option Cancellation := none
deriving DecidableEq, Repr

/-- The doctor `statistics` counters touched by the handlers. -/
structure DoctorStats where
  totalReservations : Nat
  completedReservations : Nat
  totalPatients : Nat
deriving DecidableEq, Repr

/-- One declared weekly working-hours entry of a doctor; `day` is a weekday
number 0-6 (the source stores weekday names). -/
structure WorkingHour where
  day : Nat
  isAvailable : Bool
  startTime : Nat
  endTime : Nat
deriving DecidableEq, Repr

/-- A `Doctor` document; only the fields the booking/availability handlers
read are modelled. -/
structure Doctor where
  id : Nat
  userId : Nat
  isActive : Bool
  isVerified : Bool
  consultationFee : Nat
  workingHours : List WorkingHour
  statistics : DoctorStats
deriving DecidableEq, Repr

/-- A `Pet` document; only the ownership fields the booking handler reads. -/
structure Pet where
  id : Nat
  ownerId : Nat
  isActive : Bool
deriving DecidableEq, Repr

/-- The persistent state the modelled handlers read and write. -/
structure DB where
  doctors : List Doctor
  pets : List Pet
  availabilities : List AvailabilityDay
  reservations : List Reservation
deriving DecidableEq, Repr

/-! ### Mongo-style first-match update -/
/-- Rewrite the first element satisfying `p` with `f`; models Mongo's
`updateOne` / positional `$` update and a fetched document's `save()`. -/
def updateFirst {α : Type} (p : α → Bool) (f : α → α) : List α → List α
  | [] => []
  | x :: xs => if p x then f x :: xs else x :: updateFirst p f xs

/-! ### Slot generation (`generateTimeSlots`, src/app/api/availability/route.ts) -/
/-- Fuel-indexed loop body of the source's `while (start < end)` loop: each
iteration advances `start` by `slotDuration`; a slot is emitted only when its
end does not pass `endT`.  `endT - start` fuel suffices for any positive
duration (for duration 0 the source loop would not terminate). -/
def generateTimeSlotsAux (slotDuration : Nat) : Nat → Nat → Nat → List TimeSlot
  | 0, _, _ => []
  | fuel + 1, start, endT =>
    if start < endT then
      (if start + slotDuration ≤ endT then
        [{ startTime := start, endTime := start + slotDuration, isAvailable := true }]
      else []) ++ generateTimeSlotsAux slotDuration fuel (start + slotDuration) endT
    else []

/-- Models `generateTimeSlots(startTime, endTime, slotDuration = 30)` of
src/app/api/availability/route.ts. -/
def generateTimeSlots (startTime endTime : Nat) (slotDuration : Nat := 30) :
    List TimeSlot :=
  generateTimeSlotsAux slotDuration (endTime - startTime) startTime endTime

/-- The generator slot with index `k` counting from start time `s`. -/
def slotAt (s d k : Nat) : TimeSlot :=
  { startTime := s + k * d, endTime := s + k * d + d, isAvailable := true }

/-- Shorthand constructor for a time slot. -/
def mkSlot (st et : Nat) (av : Bool) (rv : Option Nat) : TimeSlot :=
  { startTime := st, endTime := et, isAvailable := av, reservationId := rv }

/-- A calendar day with its slot list replaced. -/
def withSlots (day : AvailabilityDay) (slots : List TimeSlot) : AvailabilityDay :=
  { day with timeSlots := slots }

/-! ### Error outcomes

One constructor per distinct rejection site of the modelled handlers; the
doc strings of the constructors give the source's response message. -/
inductive ApiError where
  /-- Source message: "Doctor, pet, appointment date, time, type, and reason are required." -/
  | missingFields
  /-- Source message: "Doctor not found or not available." / "Doctor profile not found." -/
  | doctorUnavailable
  /-- Source message: "Pet not found or you do not have permission to book for this pet." -/
  | petNotOwned
  /-- Source message: "Doctor is not available on the selected date." -/
  | dayNotWorking
  /-- Source message: "The selected time slot is not available." -/
  | slotUnavailable
  /-- Source message: "No working hours defined for this day." -/
  | noWorkingHours
  /-- Source message: "Reservation not found." -/
  | reservationNotFound
  /-- Source message: "You can only update reservations assigned to you." -/
  | notAssignedDoctor
  /-- Source message: "Invalid status. Allowed: confirmed, in-progress, completed, no-show" -/
  | invalidStatus
  /-- Source message: "You can only cancel pending or confirmed reservations." -/
  | cannotCancel
  /-- Source message: "Unauthorized action." -/
  | unauthorized
deriving DecidableEq, Repr

/-! ### POST /api/availability (src/app/api/availability/route.ts) -/
/-- The request body of the availability POST handler.  Optional JSON fields
are `Option`s; the handler's JS truthiness defaults (`timeSlots || []`,
`isWorkingDay !== false`, `specialNotes || ""`) become `getD`. -/
structure AvailPostBody where
  date : Nat
  timeSlots : Option (List TimeSlot) := none
  isWorkingDay : Option Bool := none
  specialNotes : Option String := none
  generateFromWorkingHours : Bool := false
deriving DecidableEq, Repr

/-- Models `availability.save()`: rewrite the fetched document in place when one was
found, append a new document otherwise. -/
def saveAvailability (existing : Option AvailabilityDay) (day : AvailabilityDay)
    (db : DB) : DB :=
  match existing with
  | some a =>
    let days := updateFirst (fun x => x.id == a.id) (fun _ => day) db.availabilities
    { db with availabilities := days }
  | none => { db with availabilities := db.availabilities ++ [day] }

inductive AvailResult where
  | err (e : ApiError)
  | ok (db : DB) (day : AvailabilityDay)
deriving DecidableEq, Repr

/-- The availability POST handler after the auth boundary: the caller is a
doctor-typed user identified by `callerUserId`; `newId` is the `ObjectId`
Mongo would mint if a new day document is inserted. -/
def availabilityPost (db : DB) (callerUserId : Nat) (body : AvailPostBody)
    (newId : Nat) : AvailResult :=
  match db.doctors.find? (fun d => d.userId == callerUserId) with
  | none => .err .doctorUnavailable
  | some doctor =>
    let existing := db.availabilities.find?
      (fun a => a.doctorId == doctor.id && a.date == body.date)
    if body.generateFromWorkingHours = true ∧ body.isWorkingDay ≠ some false then
      match doctor.workingHours.find?
          (fun wh => wh.day == body.date % 7 && wh.isAvailable) with
      | none => .err .noWorkingHours
      | some wh =>
        let generatedSlots := generateTimeSlots wh.startTime wh.endTime
        let day : AvailabilityDay :=
          match existing with
          | some a =>
            { a with
              timeSlots := generatedSlots
              isWorkingDay := true
              specialNotes := body.specialNotes.getD "" }
          | none =>
            { id := newId
              doctorId := doctor.id
              date := body.date
              timeSlots := generatedSlots
              isWorkingDay := true
              specialNotes := body.specialNotes.getD "" }
        .ok (saveAvailability existing day db) day
    else
      let day : AvailabilityDay :=
        match existing with
        | some a =>
          { a with
            timeSlots := body.timeSlots.getD []
            isWorkingDay := body.isWorkingDay.getD true
            specialNotes := body.specialNotes.getD "" }
        | none =>
          { id := newId
            doctorId := doctor.id
            date := body.date
            timeSlots := body.timeSlots.getD []
            isWorkingDay := body.isWorkingDay.getD true
            specialNotes := body.specialNotes.getD "" }
      .ok (saveAvailability existing day db) day

/-! ### POST /api/reservations (the reservation-creation handler) -/
/-- The booking request after the auth boundary (`decoded.userId` is
`userId`; the caller is already known to be a user-typed principal). -/
structure BookRequest where
  userId : Nat
  doctorId : Nat
  petId : Nat
  appointmentDate : Nat
  appointmentTime : Nat
  rtype : String
  reason : String
deriving DecidableEq, Repr

/-- What the validation phase of the booking handler passes on to its write
phase: the fetched doctor document and the `_id` of the fetched availability
document. -/
structure BookCheck where
  doctor : Doctor
  availabilityId : Nat
deriving DecidableEq, Repr

/-- The read/validation phase of the booking handler: every step up to (and
including) the in-memory time-slot availability check; no write happens
here. -/
def bookCheck (db : DB) (req : BookRequest) : Except ApiError BookCheck :=
  if req.rtype = "" ∨ req.reason = "" then .error .missingFields
  else match db.doctors.find? (fun d => d.id == req.doctorId) with
  | none => .error .doctorUnavailable
  | some doctor =>
    if ¬ (doctor.isActive = true ∧ doctor.isVerified = true) then
      .error .doctorUnavailable
    else match db.pets.find?
        (fun p => p.id == req.petId && p.ownerId == req.userId && p.isActive) with
    | none => .error .petNotOwned
    | some _ =>
      match db.availabilities.find?
          (fun a => a.doctorId == req.doctorId && a.date == req.appointmentDate) with
      | none => .error .dayNotWorking
      | some availability =>
        if availability.isWorkingDay ≠ true then .error .dayNotWorking
        else match availability.timeSlots.find? (fun slot =>
            slot.startTime == req.appointmentTime && slot.isAvailable
              && slot.reservationId.isNone) with
        | none => .error .slotUnavailable
        | some _ => .ok { doctor := doctor, availabilityId := availability.id }

/-- Models the booking handler's `new Reservation` construction; `status` is the schema
default `pending` (the handler does not set it). -/
def newReservation (req : BookRequest) (doctor : Doctor) (rid : Nat) : Reservation :=
  { id := rid
    userId := req.userId
    doctorId := req.doctorId
    petId := req.petId
    appointmentDate := req.appointmentDate
    appointmentTime := req.appointmentTime
    status := .pending
    fees := { consultationFee := doctor.consultationFee
              additionalCharges := 0
              totalAmount := doctor.consultationFee
              paymentStatus := .pending }
    cancellation := none }

/-- Models `reservation.save()` on a freshly constructed document: insert. -/
def saveNewReservation (r : Reservation) (db : DB) : DB :=
  { db with reservations := db.reservations ++ [r] }

/-- Models the booking handler's `Availability.updateOne` slot-claim write:
filter = availability id plus a slot with the requested start time, update =
set that slot unavailable and point its reservation reference at the new
reservation; positional update hits the first slot with the given start
time.  Note the filter does not test `isAvailable`. -/
def claimSlotInDay (t rid : Nat) (a : AvailabilityDay) : AvailabilityDay :=
  let slots := updateFirst (fun s => s.startTime == t)
    (fun s => { s with isAvailable := false, reservationId := some rid })
    a.timeSlots
  { a with timeSlots := slots }

def claimSlotUpdate (availabilityId t rid : Nat) (db : DB) : DB :=
  let days := updateFirst
    (fun a => a.id == availabilityId && a.timeSlots.any (fun s => s.startTime == t))
    (claimSlotInDay t rid)
    db.availabilities
  { db with availabilities := days }

/-- Models the booking handler incrementing `statistics.totalReservations`. -/
def incTotalReservations (doctorId : Nat) (db : DB) : DB :=
  let docs := updateFirst (fun d => d.id == doctorId)
    (fun d =>
      let st := { d.statistics with totalReservations := d.statistics.totalReservations + 1 }
      { d with statistics := st })
    db.doctors
  { db with doctors := docs }

/-- The write phase of the booking handler, in source order: persist the
Reservation, then claim the slot, then bump the doctor counter.  Returns the
state after each of the three writes. -/
def bookWrites (db : DB) (req : BookRequest) (c : BookCheck) (rid : Nat) :
    DB × DB × DB × Reservation :=
  let res := newReservation req c.doctor rid
  let db1 := saveNewReservation res db
  let db2 := claimSlotUpdate c.availabilityId req.appointmentTime rid db1
  let db3 := incTotalReservations req.doctorId db2
  (db1, db2, db3, res)

inductive BookResult where
  | err (e : ApiError)
  | ok (res : Reservation) (afterSave afterClaim afterStats : DB)
deriving DecidableEq, Repr

/-- The whole booking handler: validation phase then write phase, exposing
the state after each write. -/
def bookReservation (db : DB) (req : BookRequest) (rid : Nat) : BookResult :=
  match bookCheck db req with
  | .error e => .err e
  | .ok c =>
    match bookWrites db req c rid with
    | (db1, db2, db3, res) => .ok res db1 db2 db3

/-- An interleaving of two whole booking requests in which both validation
phases run against the same initial state before either write phase runs
(each phase is a sequence of individually-atomic Mongo calls, so this
interleaving is reachable).  Returns the final state when both requests got
past validation, `none` when either was rejected. -/
def bookTwoRacy (db : DB) (reqA reqB : BookRequest) (ridA ridB : Nat) :
    Option DB :=
  match bookCheck db reqA, bookCheck db reqB with
  | .ok cA, .ok cB =>
    let dbA := (bookWrites db reqA cA ridA).2.2.1
    let dbB := (bookWrites dbA reqB cB ridB).2.2.1
    some dbB
  | _, _ => none

/-! ### PUT /api/reservations/[id] (status update / cancellation) -/
/-- The `allowedStatuses` array of the doctor branch. -/
def allowedStatuses : List RStatus := [.confirmed, .inProgress, .completed, .noShow]

/-- Models the PUT handler incrementing `statistics.completedReservations`
and `statistics.totalPatients`. -/
def completedBump (d : Doctor) : Doctor :=
  let st :=
    { d.statistics with
      completedReservations := d.statistics.completedReservations + 1
      totalPatients := d.statistics.totalPatients + 1 }
  { d with statistics := st }

def incCompletedStats (doctorId : Nat) (db : DB) : DB :=
  let docs := updateFirst (fun d => d.id == doctorId) completedBump db.doctors
  { db with doctors := docs }

/-- Models `reservation.save()` on the document fetched by `findById`:
rewrite it in place. -/
def saveReservation (r : Reservation) (db : DB) : DB :=
  let rs := updateFirst (fun x => x.id == r.id) (fun _ => r) db.reservations
  { db with reservations := rs }

/-- Models the cancellation branch's `Availability.updateOne` slot release:
filter = doctor, day and a slot holding the reservation, update = set that
slot available again and null its reservation reference. -/
def releaseSlotInDay (rid : Nat) (a : AvailabilityDay) : AvailabilityDay :=
  let slots := updateFirst (fun s => s.reservationId == some rid)
    (fun s => { s with isAvailable := true, reservationId := none })
    a.timeSlots
  { a with timeSlots := slots }

def releaseSlotUpdate (doctorId date rid : Nat) (db : DB) : DB :=
  let days := updateFirst
    (fun a => a.doctorId == doctorId && a.date == date
      && a.timeSlots.any (fun s => s.reservationId == some rid))
    (releaseSlotInDay rid)
    db.availabilities
  { db with availabilities := days }

inductive PutResult where
  | err (e : ApiError)
  | ok (db : DB) (reservation : Reservation)
deriving DecidableEq, Repr

/-- The PUT handler after the auth boundary: `callerUserId` is the decoded
principal, `callerIsDoctor` its `userType === "doctor"` flag, `status` the
body's status field (absent or not one of the six enum values behaves like
any value outside `allowedStatuses` / not `"cancelled"`), `now` the clock
value used for `cancelledAt`. -/
def putReservation (db : DB) (resId callerUserId : Nat) (callerIsDoctor : Bool)
    (status : Option RStatus) (cancellationReason : Option String) (now : Nat) :
    PutResult :=
  match db.reservations.find? (fun r => r.id == resId) with
  | none => .err .reservationNotFound
  | some reservation =>
    if callerIsDoctor then
      match db.doctors.find? (fun d => d.userId == callerUserId) with
      | none => .err .notAssignedDoctor
      | some doctor =>
        if reservation.doctorId ≠ doctor.id then .err .notAssignedDoctor
        else match status with
        | some s =>
          if allowedStatuses.contains s then
            let r := { reservation with status := s }
            let db1 := if s = .completed then incCompletedStats doctor.id db else db
            .ok (saveReservation r db1) r
          else .err .invalidStatus
        | none => .err .invalidStatus
    else if reservation.userId = callerUserId ∧ status = some .cancelled then
      if reservation.status ≠ .pending ∧ reservation.status ≠ .confirmed then
        .err .cannotCancel
      else
        let r :=
          { reservation with
            status := .cancelled
            cancellation := some
              { cancelledBy := callerUserId
                cancelledAt := now
                reason := cancellationReason.getD "Cancelled by user" } }
        let db1 := releaseSlotUpdate reservation.doctorId reservation.appointmentDate
          reservation.id db
        .ok (saveReservation r db1) r
    else .err .unauthorized

/-! ### The slot/reservation ownership invariant (spec §3) -/
/-- Invariant of spec section 3: `isAvailable == false` if-and-only-if
`reservationId` is set. -/
def slotInvariant (s : TimeSlot) : Prop := s.isAvailable = false ↔ s.reservationId.isSome

/-- Every slot of the day satisfies the slot invariant. -/
def dayInvariant (a : AvailabilityDay) : Prop := ∀ s ∈ a.timeSlots, slotInvariant s

/-- Every persisted day satisfies the slot invariant. -/
def dbSlotInvariant (db : DB) : Prop := ∀ a ∈ db.availabilities, dayInvariant a

instance (s : TimeSlot) : Decidable (slotInvariant s) := by
  unfold slotInvariant; infer_instance

instance (a : AvailabilityDay) : Decidable (dayInvariant a) := by
  unfold dayInvariant; infer_instance

instance (db : DB) : Decidable (dbSlotInvariant db) := by
  unfold dbSlotInvariant; infer_instance

/-- A reservation's slot claim is present in the calendar. -/
def slotClaimedFor (db : DB) (r : Reservation) : Prop :=
  ∃ a ∈ db.availabilities, ∃ s ∈ a.timeSlots, s.reservationId = some r.id

instance (db : DB) (r : Reservation) : Decidable (slotClaimedFor db r) := by
  unfold slotClaimedFor; infer_instance

/-! ### Concrete fixtures for the executable theorems -/
def stats0 : DoctorStats where
  totalReservations := 0
  completedReservations := 0
  totalPatients := 0

/-- An active, verified doctor with consultation fee 150 and Sunday-weekday
(day number 0) working hours 09:00-10:00. -/
def doctor0 : Doctor where
  id := 1
  userId := 10
  isActive := true
  isVerified := true
  consultationFee := 150
  workingHours := [{ day := 0, isAvailable := true, startTime := 540, endTime := 600 }]
  statistics := stats0

def pet0 : Pet where
  id := 2
  ownerId := 20
  isActive := true

def pet1 : Pet where
  id := 3
  ownerId := 21
  isActive := true

/-- A working calendar day for `doctor0` with two free 30-minute slots. -/
def day0 : AvailabilityDay where
  id := 30
  doctorId := 1
  date := 0
  timeSlots :=
    [{ startTime := 540, endTime := 570, isAvailable := true, reservationId := none },
     { startTime := 570, endTime := 600, isAvailable := true, reservationId := none }]
  isWorkingDay := true
  specialNotes := ""

def db0 : DB where
  doctors := [doctor0]
  pets := [pet0, pet1]
  availabilities := [day0]
  reservations := []

/-- A valid booking request of user 20 for the 09:00 slot of `doctor0`. -/
def req0 : BookRequest where
  userId := 20
  doctorId := 1
  petId := 2
  appointmentDate := 0
  appointmentTime := 540
  rtype := "consultation"
  reason := "annual checkup"

/-- A valid booking request of a second user for the same slot. -/
def reqB : BookRequest where
  userId := 21
  doctorId := 1
  petId := 3
  appointmentDate := 0
  appointmentTime := 540
  rtype := "consultation"
  reason := "vaccination shot"

/-- The reservation created by booking `req0` with fresh id 100, and the
three successive states of that booking's write phase. -/
def resBooked : Reservation := newReservation req0 doctor0 100

def dbAfterSave : DB := saveNewReservation resBooked db0

def dbAfterClaim : DB := claimSlotUpdate 30 540 100 dbAfterSave

def dbAfterStats : DB := incTotalReservations 1 dbAfterClaim

/-- The final state of the racy interleaving of `req0` and `reqB`. -/
def dbRaceMid : DB :=
  (bookWrites db0 req0 { doctor := doctor0, availabilityId := 30 } 100).2.2.1

def dbRaceFinal : DB :=
  (bookWrites dbRaceMid reqB { doctor := doctor0, availabilityId := 30 } 101).2.2.1

/-- A reservation of user 20 with `doctor0` that is already completed. -/
def resCompleted : Reservation where
  id := 50
  userId := 20
  doctorId := 1
  petId := 2
  appointmentDate := 0
  appointmentTime := 540
  status := .completed
  fees := { consultationFee := 150, additionalCharges := 0, totalAmount := 150,
            paymentStatus := .pending }
  cancellation := none

def dbCompleted : DB where
  doctors := [doctor0]
  pets := [pet0]
  availabilities := [day0]
  reservations := [resCompleted]

/-- The completed reservation forced back to `confirmed`, and the state the
PUT handler persists it into. -/
def resReconfirmed : Reservation := { resCompleted with status := .confirmed }

def dbReconfirmed : DB := saveReservation resReconfirmed dbCompleted

/-- A caller-supplied slot that is unavailable yet holds no reservation. -/
def badSlot : TimeSlot where
  startTime := 540
  endTime := 570
  isAvailable := false
  reservationId := none

def bodyBadSlots : AvailPostBody where
  date := 0
  timeSlots := some [badSlot]
  isWorkingDay := none
  specialNotes := none
  generateFromWorkingHours := false

def dbNoDays : DB where
  doctors := [doctor0]
  pets := []
  availabilities := []
  reservations := []

/-- The day record the handler persists from `bodyBadSlots`. -/
def dayBad : AvailabilityDay where
  id := 7
  doctorId := 1
  date := 0
  timeSlots := [badSlot]
  isWorkingDay := true
  specialNotes := ""

def dbBad : DB := { dbNoDays with availabilities := [dayBad] }

/-- The calendar day of `doctor0` after its 09:00 slot was claimed by
reservation 50. -/
def dayClaimed : AvailabilityDay where
  id := 30
  doctorId := 1
  date := 0
  timeSlots :=
    [{ startTime := 540, endTime := 570, isAvailable := false, reservationId := some 50 },
     { startTime := 570, endTime := 600, isAvailable := true, reservationId := none }]
  isWorkingDay := true
  specialNotes := ""

def bodyGen : AvailPostBody where
  date := 0
  timeSlots := none
  isWorkingDay := none
  specialNotes := none
  generateFromWorkingHours := true

def dbClaimed : DB where
  doctors := [doctor0]
  pets := [pet0]
  availabilities := [dayClaimed]
  reservations := [resCompleted]

/-- The record `dayClaimed` after the ensure-day operation regenerates its
slots from `doctor0`'s working hours. -/
def dayRegen : AvailabilityDay :=
  { dayClaimed with timeSlots :=
      [{ startTime := 540, endTime := 570, isAvailable := true, reservationId := none },
       { startTime := 570, endTime := 600, isAvailable := true, reservationId := none }] }

def dbRegen : DB := { dbClaimed with availabilities := [dayRegen] }

/-- A pending reservation of user 20 with `doctor0`. -/
def resPending : Reservation where
  id := 60
  userId := 20
  doctorId := 1
  petId := 2
  appointmentDate := 0
  appointmentTime := 540
  status := .pending
  fees := { consultationFee := 150, additionalCharges := 0, totalAmount := 150,
            paymentStatus := .pending }
  cancellation := none

def dbPending : DB where
  doctors := [doctor0]
  pets := [pet0]
  availabilities := [dayClaimed]
  reservations := [resPending]

/-- The cancelled version of a reservation, exactly as the user-cancellation
branch of the PUT handler builds it. -/
def cancelledRes (res : Reservation) (callerUserId now : Nat)
    (creason : Option String) : Reservation :=
  let c : Cancellation :=
    { cancelledBy := callerUserId
      cancelledAt := now
      reason := creason.getD "Cancelled by user" }
  { res with status := .cancelled, cancellation := some c }

/-- The released version of a calendar day: its slot claimed by `rid` (first
of the decomposition) set back to available with the reference cleared. -/
def releasedDay (day : AvailabilityDay) (s₁ s₂ : List TimeSlot) (sl : TimeSlot) :
    AvailabilityDay :=
  { day with timeSlots := s₁ ++ { sl with isAvailable := true, reservationId := none } :: s₂ }

/-- The calendar day of `doctor0` whose 09:00 slot is claimed by the pending
reservation 60. -/
def day60 : AvailabilityDay where
  id := 31
  doctorId := 1
  date := 0
  timeSlots :=
    [{ startTime := 540, endTime := 570, isAvailable := false, reservationId := some 60 },
     { startTime := 570, endTime := 600, isAvailable := true, reservationId := none }]
  isWorkingDay := true
  specialNotes := ""

def dbPend60 : DB where
  doctors := [doctor0]
  pets := [pet0]
  availabilities := [day60]
  reservations := [resPending]

/-- The day record created by the first ensure-day call of the C4 witness,
and the resulting state. -/
def dayGen : AvailabilityDay where
  id := 7
  doctorId := 1
  date := 0
  timeSlots := generateTimeSlots 540 600 30
  isWorkingDay := true
  specialNotes := ""

def dbGen : DB := { dbNoDays with availabilities := [dayGen] }

/-! ### Theorems -/

theorem updateFirst_append {α : Type} (p : α → Bool) (f : α → α)
    (l₁ l₂ : List α) (h : ∀ y ∈ l₁, p y = false) :
    updateFirst p f (l₁ ++ l₂) = l₁ ++ updateFirst p f l₂ := by
  induction l₁ with
  | nil => simp
  | cons x xs ih =>
    have hx : p x = false := h x (List.mem_cons_self x xs)
    simp only [List.cons_append, updateFirst, hx, Bool.false_eq_true, if_false,
      List.cons.injEq, true_and]
    exact ih (fun y hy => h y (List.mem_cons_of_mem x hy))

theorem updateFirst_eq {α : Type} (p : α → Bool) (f : α → α)
    (l₁ l₂ : List α) (x : α) (h : ∀ y ∈ l₁, p y = false) (hx : p x = true) :
    updateFirst p f (l₁ ++ x :: l₂) = l₁ ++ f x :: l₂ := by
  rw [updateFirst_append p f l₁ (x :: l₂) h]
  simp [updateFirst, hx]

theorem find?_append_cons {α : Type} (p : α → Bool)
    (l₁ l₂ : List α) (x : α) (h : ∀ y ∈ l₁, p y = false) (hx : p x = true) :
    (l₁ ++ x :: l₂).find? p = some x := by
  induction l₁ with
  | nil => simp [List.find?, hx]
  | cons z zs ih =>
    have hz : p z = false := h z (List.mem_cons_self z zs)
    simp only [List.cons_append, List.find?, hz]
    exact ih (fun y hy => h y (List.mem_cons_of_mem z hy))

theorem updateFirst_preserves {α : Type} (P : α → Prop) (p : α → Bool)
    (f : α → α) (hf : ∀ x, P x → P (f x)) :
    ∀ l : List α, (∀ x ∈ l, P x) → ∀ y ∈ updateFirst p f l, P y := by
  intro l
  induction l with
  | nil => intro _ y hy; simp [updateFirst] at hy
  | cons x xs ih =>
    intro hall y hy
    rw [updateFirst] at hy
    by_cases hx : p x = true
    · rw [if_pos hx] at hy
      rcases List.mem_cons.mp hy with hy | hy
      · exact hy ▸ hf x (hall x (List.mem_cons_self x xs))
      · exact hall y (List.mem_cons_of_mem x hy)
    · rw [if_neg hx] at hy
      rcases List.mem_cons.mp hy with hy | hy
      · exact hy ▸ hall x (List.mem_cons_self x xs)
      · exact ih (fun z hz => hall z (List.mem_cons_of_mem x hz)) y hy

theorem generateTimeSlotsAux_eq (d : Nat) (hd : 0 < d) :
    ∀ (fuel s e : Nat), e - s ≤ fuel →
      generateTimeSlotsAux d fuel s e = (List.range ((e - s) / d)).map (slotAt s d) := by
  intro fuel
  induction fuel with
  | zero =>
    intro s e h
    have he : e - s = 0 := Nat.le_zero.mp h
    simp [generateTimeSlotsAux, he]
  | succ n ih =>
    intro s e h
    by_cases hse : s < e
    · by_cases hsd : s + d ≤ e
      · have hfuel : e - (s + d) ≤ n := by omega
        have hstep : (e - s) / d = (e - (s + d)) / d + 1 := by
          have h1 : e - s = (e - (s + d)) + d := by omega
          rw [h1, Nat.add_div_right _ hd]
        rw [generateTimeSlotsAux, if_pos hse, if_pos hsd, ih (s + d) e hfuel, hstep,
          List.range_succ_eq_map]
        simp only [List.map_cons, List.map_map, List.singleton_append, List.cons.injEq]
        constructor
        · simp [slotAt]
        · apply List.map_congr_left
          intro k _
          simp only [Function.comp_apply, slotAt, Nat.succ_eq_add_one, TimeSlot.mk.injEq,
            and_true]
          exact ⟨by ring, by ring⟩
      · have hlt : e - s < d := by omega
        have hz : (e - s) / d = 0 := Nat.div_eq_of_lt hlt
        have hfuel : e - (s + d) ≤ n := by omega
        have htail : (e - (s + d)) / d = 0 := Nat.div_eq_of_lt (by omega)
        rw [generateTimeSlotsAux, if_pos hse, if_neg hsd, ih (s + d) e hfuel, htail, hz]
        simp
    · have he : e - s = 0 := by omega
      rw [generateTimeSlotsAux, if_neg hse]
      simp [he]

theorem generateTimeSlots_eq (s e d : Nat) (hd : 0 < d) :
    generateTimeSlots s e d = (List.range ((e - s) / d)).map (slotAt s d) :=
  generateTimeSlotsAux_eq d hd (e - s) s e le_rfl

/-- C1: the claim states that the Reservation is written only after the slot
claim has succeeded, so that after no step of the booking operation does a
Reservation exist whose slot is not claimed.  The code does the opposite:
`reservation.save()` runs before the `Availability.updateOne` slot claim, so
after the save step of this entirely valid booking the new Reservation is
persisted while its slot is still unclaimed (it only becomes claimed at the
next step). -/
theorem C1_reservation_saved_before_claim :
    bookReservation db0 req0 100 = .ok resBooked dbAfterSave dbAfterClaim dbAfterStats ∧
    resBooked ∈ dbAfterSave.reservations ∧
    ¬ slotClaimedFor dbAfterSave resBooked ∧
    slotClaimedFor dbAfterClaim resBooked := by
  decide

/-- C2: the claim states that of N concurrent booking attempts on one free
slot exactly one succeeds and the rest fail with the slot-unavailable error,
the claim being a single atomic conditional update.  In the code the
availability check is an in-memory read separate from the
`Availability.updateOne` write, whose filter does not test `isAvailable`; in
the interleaving where both requests validate before either writes, both
bookings succeed: two Reservations for the same (doctor, date, start time)
are persisted and the slot ends up claimed by the second. -/
theorem C2_concurrent_double_booking :
    bookTwoRacy db0 req0 reqB 100 101 = some dbRaceFinal ∧
    (dbRaceFinal.reservations.filter (fun r =>
        r.doctorId == 1 && r.appointmentDate == 0 && r.appointmentTime == 540)).length
      = 2 ∧
    (∃ a ∈ dbRaceFinal.availabilities, ∃ s ∈ a.timeSlots,
      s.startTime = 540 ∧ s.reservationId = some 101) := by
  decide

/-- C5: the claim states that completed/cancelled/no-show are terminal: any
further status-transition attempt fails with the invalid-transition error and
leaves the status unchanged.  The doctor branch of the PUT handler validates
only the target status (its comment says "Validate status transitions" but
the current status is never read), so the assigned doctor moving an already
completed reservation back to `confirmed` succeeds and overwrites the
status. -/
theorem C5_completed_not_terminal :
    putReservation dbCompleted 50 10 true (some .confirmed) none 99 =
      .ok dbReconfirmed resReconfirmed ∧
    resReconfirmed.status = .confirmed ∧
    dbReconfirmed.reservations = [resReconfirmed] := by
  decide

/-- C3 counterexample: the availability POST handler persists caller-supplied
`timeSlots` verbatim, so a doctor posting a slot with `isAvailable = false`
and no `reservationId` produces a persisted day violating the slot
invariant, even starting from a state satisfying it. -/
theorem C3_counterexample_caller_slots :
    dbSlotInvariant dbNoDays ∧
    availabilityPost dbNoDays 10 bodyBadSlots 7 = .ok dbBad dayBad ∧
    ¬ dbSlotInvariant dbBad := by
  decide

/-- C4 counterexample: the claim states that re-invoking the ensure-day
operation when a day record already exists is a no-op on that record.  The
generate-from-working-hours branch instead regenerates the slot list and
overwrites the existing record: invoked on a day whose 09:00 slot is claimed
by reservation 50, it resets that slot to available with no reservation
reference, changing the record. -/
theorem C4_counterexample_regenerate_overwrites :
    availabilityPost dbClaimed 10 bodyGen 99 = .ok dbRegen dayRegen ∧
    dbRegen.availabilities ≠ dbClaimed.availabilities ∧
    dayRegen.id = dayClaimed.id ∧
    dayRegen.timeSlots.head? =
      some { startTime := 540, endTime := 570, isAvailable := true, reservationId := none } := by
  decide

/-- C6 counterexample: the claim states that the assigned doctor can cancel a
pending reservation.  In the code a doctor-typed caller always takes the
doctor branch, whose `allowedStatuses` list does not contain `cancelled`, so
the assigned doctor's cancellation attempt on their own pending reservation
is rejected with the invalid-status error. -/
theorem C6_counterexample_doctor_cancel_rejected :
    putReservation dbPending 60 10 true (some .cancelled) none 99 = .err .invalidStatus := by
  decide

/-- C7: for every start time, end time and positive slot duration with
start < end, the generated list has exactly (end - start) / duration slots;
the slot with index i runs from start + i*duration to start + (i+1)*duration,
so slots are each exactly duration minutes long, contiguous,
non-overlapping, in start-time order, lie inside the working interval, and
are all initially available with no reservation reference; the covered
prefix ends within one duration of the end time, the final partial slot
being omitted rather than clipped. -/
theorem C7_generateTimeSlots_correct (s e d : Nat) (hd : 0 < d) (hse : s < e) :
    (generateTimeSlots s e d).length = (e - s) / d ∧
    (∀ i, (h : i < (generateTimeSlots s e d).length) →
      (generateTimeSlots s e d)[i] =
        { startTime := s + i * d, endTime := s + i * d + d, isAvailable := true,
          reservationId := none }) ∧
    (∀ sl ∈ generateTimeSlots s e d,
      sl.endTime = sl.startTime + d ∧ s ≤ sl.startTime ∧ sl.endTime ≤ e ∧
        sl.isAvailable = true ∧ sl.reservationId = none) ∧
    (∀ i, (h : i + 1 < (generateTimeSlots s e d).length) →
      ((generateTimeSlots s e d).get ⟨i, Nat.lt_of_succ_lt h⟩).endTime =
        ((generateTimeSlots s e d).get ⟨i + 1, h⟩).startTime) ∧
    s + (e - s) / d * d ≤ e ∧ e < s + (e - s) / d * d + d := by
  have hL := generateTimeSlots_eq s e d hd
  have hlen : (generateTimeSlots s e d).length = (e - s) / d := by
    rw [hL]; simp
  have hget : ∀ i, (h : i < (generateTimeSlots s e d).length) →
      (generateTimeSlots s e d)[i] =
        { startTime := s + i * d, endTime := s + i * d + d, isAvailable := true,
          reservationId := none } := by
    intro i h
    have hi : i < (e - s) / d := hlen ▸ h
    simp only [hL, List.getElem_map, List.getElem_range, slotAt]
  have hmul : (e - s) / d * d ≤ e - s := Nat.div_mul_le_self (e - s) d
  refine ⟨hlen, hget, ?_, ?_, ?_, ?_⟩
  · intro sl hsl
    rw [hL] at hsl
    rcases List.mem_map.mp hsl with ⟨k, hk, rfl⟩
    have hk' : k < (e - s) / d := List.mem_range.mp hk
    have hk1 : (k + 1) * d ≤ (e - s) / d * d :=
      Nat.mul_le_mul_right d (Nat.succ_le_of_lt hk')
    have hend : s + k * d + d ≤ e := by
      rw [Nat.succ_mul] at hk1
      omega
    exact ⟨rfl, Nat.le_add_right s (k * d), hend, rfl, rfl⟩
  · intro i h
    rw [List.get_eq_getElem, List.get_eq_getElem, hget i (Nat.lt_of_succ_lt h),
      hget (i + 1) h]
    simp only [Nat.succ_mul]
    ring
  · omega
  · have h2 : e - s < ((e - s) / d + 1) * d :=
      (Nat.div_lt_iff_lt_mul hd).mp (Nat.lt_succ_self _)
    rw [Nat.succ_mul] at h2
    omega

/-- C7 witness: 09:00-17:00 with the default 30-minute duration yields
exactly 16 slots, the first 09:00-09:30 and the last 16:30-17:00, all
available. -/
theorem C7_witness :
    (0 < 30 ∧ 540 < 1020) ∧
    (generateTimeSlots 540 1020 30).length = (1020 - 540) / 30 ∧
    (generateTimeSlots 540 1020 30).length = 16 ∧
    (generateTimeSlots 540 1020 30).head? =
      some { startTime := 540, endTime := 570, isAvailable := true, reservationId := none } ∧
    (generateTimeSlots 540 1020 30).getLast? =
      some { startTime := 990, endTime := 1020, isAvailable := true, reservationId := none } ∧
    hhmm 540 = "09:00" ∧ hhmm 570 = "09:30" ∧ hhmm 990 = "16:30" ∧ hhmm 1020 = "17:00" := by
  refine ⟨by decide, (C7_generateTimeSlots_correct 540 1020 30 (by decide) (by decide)).1,
    by decide, by decide, by decide, by decide, by decide, by decide, by decide⟩

/-- C9: every booking that passes validation creates its Reservation with
totalAmount = consultationFee + additionalCharges, additionalCharges = 0 and
consultationFee the fetched doctor's current consultation fee, in status
pending with paymentStatus pending, and persists it. -/
theorem C9_fees_correct
    (db : DB) (req : BookRequest) (rid : Nat) (doctor : Doctor)
    (pet : Pet) (avail : AvailabilityDay) (sl : TimeSlot)
    (hrt : req.rtype ≠ "") (hre : req.reason ≠ "")
    (hdoc : db.doctors.find? (fun d => d.id == req.doctorId) = some doctor)
    (hact : doctor.isActive = true) (hver : doctor.isVerified = true)
    (hpet : db.pets.find?
      (fun p => p.id == req.petId && p.ownerId == req.userId && p.isActive) = some pet)
    (hav : db.availabilities.find?
      (fun a => a.doctorId == req.doctorId && a.date == req.appointmentDate) = some avail)
    (hwork : avail.isWorkingDay = true)
    (hslot : avail.timeSlots.find? (fun slot => slot.startTime == req.appointmentTime
      && slot.isAvailable && slot.reservationId.isNone) = some sl) :
    ∃ db1 db2 db3,
      bookReservation db req rid = .ok (newReservation req doctor rid) db1 db2 db3 ∧
      db3.reservations = db.reservations ++ [newReservation req doctor rid] ∧
      (newReservation req doctor rid).fees.totalAmount =
        (newReservation req doctor rid).fees.consultationFee +
          (newReservation req doctor rid).fees.additionalCharges ∧
      (newReservation req doctor rid).fees.additionalCharges = 0 ∧
      (newReservation req doctor rid).fees.consultationFee = doctor.consultationFee ∧
      (newReservation req doctor rid).status = .pending ∧
      (newReservation req doctor rid).fees.paymentStatus = .pending := by
  have h1 : ¬(req.rtype = "" ∨ req.reason = "") := by
    push_neg
    exact ⟨hrt, hre⟩
  have hbc : bookCheck db req = .ok { doctor := doctor, availabilityId := avail.id } := by
    simp only [bookCheck, if_neg h1, hdoc, hact, hver, and_self, not_true_eq_false,
      if_false, hpet, hav, hwork, ne_eq, not_true, hslot]
  refine ⟨saveNewReservation (newReservation req doctor rid) db,
    claimSlotUpdate avail.id req.appointmentTime rid
      (saveNewReservation (newReservation req doctor rid) db),
    incTotalReservations req.doctorId (claimSlotUpdate avail.id req.appointmentTime rid
      (saveNewReservation (newReservation req doctor rid) db)),
    ?_, rfl, rfl, rfl, rfl, rfl, rfl⟩
  unfold bookReservation
  rw [hbc]
  rfl

/-- C9 witness: booking the free 09:00 slot of the fee-150 doctor yields a
persisted pending reservation with totalAmount 150. -/
theorem C9_witness :
    (∃ db1 db2 db3,
      bookReservation db0 req0 100 = .ok (newReservation req0 doctor0 100) db1 db2 db3 ∧
      db3.reservations = db0.reservations ++ [newReservation req0 doctor0 100] ∧
      (newReservation req0 doctor0 100).fees.totalAmount =
        (newReservation req0 doctor0 100).fees.consultationFee +
          (newReservation req0 doctor0 100).fees.additionalCharges ∧
      (newReservation req0 doctor0 100).fees.additionalCharges = 0 ∧
      (newReservation req0 doctor0 100).fees.consultationFee = doctor0.consultationFee ∧
      (newReservation req0 doctor0 100).status = .pending ∧
      (newReservation req0 doctor0 100).fees.paymentStatus = .pending) ∧
    (newReservation req0 doctor0 100).fees.totalAmount = 150 := by
  refine ⟨C9_fees_correct db0 req0 100 doctor0 pet0 day0
    { startTime := 540, endTime := 570, isAvailable := true, reservationId := none }
    (by decide) (by decide) (by decide) (by decide) (by decide) (by decide) (by decide)
    (by decide) (by decide), by decide⟩

/-- C10: a status update to completed by the assigned doctor always succeeds
and bumps the doctor's completedReservations and totalPatients counters by
exactly one, whatever the reservation's previous status was (in particular
also when it was already completed, so repeating the update keeps
incrementing). -/
theorem C10_completed_increments_stats
    (db : DB) (resId callerUserId now : Nat) (creason : Option String)
    (res : Reservation) (doctor : Doctor)
    (r₁ r₂ : List Reservation) (d₁ d₂ : List Doctor)
    (hres : db.reservations = r₁ ++ res :: r₂)
    (hr₁ : ∀ x ∈ r₁, (x.id == resId) = false)
    (hresid : res.id = resId)
    (hdocs : db.doctors = d₁ ++ doctor :: d₂)
    (hd₁ : ∀ x ∈ d₁, (x.userId == callerUserId) = false)
    (hdu : doctor.userId = callerUserId)
    (hassigned : res.doctorId = doctor.id)
    (hid₁ : ∀ x ∈ d₁, (x.id == doctor.id) = false) :
    ∃ db1,
      putReservation db resId callerUserId true (some .completed) creason now =
        .ok db1 { res with status := .completed } ∧
      db1.doctors = d₁ ++ completedBump doctor :: d₂ ∧
      db1.reservations = r₁ ++ { res with status := .completed } :: r₂ ∧
      db1.availabilities = db.availabilities ∧
      (completedBump doctor).statistics.completedReservations =
        doctor.statistics.completedReservations + 1 ∧
      (completedBump doctor).statistics.totalPatients =
        doctor.statistics.totalPatients + 1 := by
  have hfindr : db.reservations.find? (fun r => r.id == resId) = some res := by
    rw [hres]
    exact find?_append_cons _ _ _ _ hr₁ (by simp [hresid])
  have hfindd : db.doctors.find? (fun d => d.userId == callerUserId) = some doctor := by
    rw [hdocs]
    exact find?_append_cons _ _ _ _ hd₁ (by simp [hdu])
  have hdocs1 : (incCompletedStats doctor.id db).doctors =
      d₁ ++ completedBump doctor :: d₂ := by
    unfold incCompletedStats
    rw [hdocs]
    exact updateFirst_eq _ _ _ _ _ hid₁ (by simp)
  have hput : putReservation db resId callerUserId true (some .completed) creason now =
      .ok (saveReservation { res with status := .completed } (incCompletedStats doctor.id db))
        { res with status := .completed } := by
    simp [putReservation, hfindr, hfindd, hassigned, allowedStatuses]
  refine ⟨_, hput, ?_, ?_, rfl, rfl, rfl⟩
  · exact hdocs1
  · show (updateFirst (fun x => x.id == ({ res with status := RStatus.completed } :
        Reservation).id) _ (incCompletedStats doctor.id db).reservations) = _
    have hresv : (incCompletedStats doctor.id db).reservations = r₁ ++ res :: r₂ := by
      unfold incCompletedStats
      exact hres
    rw [hresv]
    refine updateFirst_eq _ _ _ _ _ ?_ (by simp)
    intro x hx
    have : (({ res with status := RStatus.completed } : Reservation)).id = resId := hresid
    rw [this]
    exact hr₁ x hx

/-- C10 witness: completing the already-completed reservation 50 twice keeps
incrementing the doctor's counters (0 to 1 to 2). -/
theorem C10_witness :
    ∃ db1,
      putReservation dbCompleted 50 10 true (some .completed) none 99 =
        .ok db1 { resCompleted with status := .completed } ∧
      db1.doctors = [completedBump doctor0] ∧
      (∃ db2,
        putReservation db1 50 10 true (some .completed) none 99 =
          .ok db2 { resCompleted with status := .completed } ∧
        db2.doctors = [completedBump (completedBump doctor0)]) ∧
      (completedBump (completedBump doctor0)).statistics.completedReservations =
        doctor0.statistics.completedReservations + 2 := by
  obtain ⟨db1, hput1, hdocs1, hres1, hav1, -, -⟩ :=
    C10_completed_increments_stats dbCompleted 50 10 99 none resCompleted doctor0
      [] [] [] [] (by decide) (by decide) (by decide) (by decide) (by decide) (by decide)
      (by decide) (by decide)
  have hdb1r : db1.reservations = [{ resCompleted with status := .completed }] := hres1
  have hdb1d : db1.doctors = [completedBump doctor0] := hdocs1
  obtain ⟨db2, hput2, hdocs2, -, -, -, -⟩ :=
    C10_completed_increments_stats db1 50 10 99 none
      { resCompleted with status := .completed } (completedBump doctor0)
      [] [] [] [] (by rw [hdb1r]; rfl) (by decide) (by decide) (by rw [hdb1d]; rfl)
      (by decide) (by decide) (by decide) (by decide)
  exact ⟨db1, hput1, hdocs1, ⟨db2, hput2, hdocs2⟩, by decide⟩

/-- C6 (amended): cancellation is owner-only.  For a reservation in pending
or confirmed status, a cancellation request by the owning (non-doctor) user
succeeds, sets the status to cancelled, records who cancelled, when and why,
and releases the claimed slot; cancellation from in-progress or a terminal
status is rejected; a doctor-typed caller - including the assigned doctor -
cannot cancel at all, the doctor branch rejecting `cancelled` as an invalid
status; an owner request with any status other than cancelled is rejected as
unauthorized; and no doctor status update (the only other successful
transitions) touches the slot calendar. -/
theorem C6_cancellation_amended
    (db : DB) (resId now : Nat) (creason : Option String)
    (res : Reservation) (r₁ r₂ : List Reservation)
    (hres : db.reservations = r₁ ++ res :: r₂)
    (hr₁ : ∀ x ∈ r₁, (x.id == resId) = false)
    (hresid : res.id = resId) :
    ((res.status = .pending ∨ res.status = .confirmed) →
      ∀ (day : AvailabilityDay) (a₁ a₂ : List AvailabilityDay)
        (sl : TimeSlot) (s₁ s₂ : List TimeSlot),
        db.availabilities = a₁ ++ day :: a₂ →
        (∀ y ∈ a₁, y.timeSlots.any (fun s => s.reservationId == some res.id) = false) →
        day.doctorId = res.doctorId →
        day.date = res.appointmentDate →
        day.timeSlots = s₁ ++ sl :: s₂ →
        (∀ s ∈ s₁, (s.reservationId == some res.id) = false) →
        sl.reservationId = some res.id →
        ∃ db1,
          putReservation db resId res.userId false (some .cancelled) creason now =
            .ok db1 (cancelledRes res res.userId now creason) ∧
          db1.reservations = r₁ ++ cancelledRes res res.userId now creason :: r₂ ∧
          db1.availabilities = a₁ ++ releasedDay day s₁ s₂ sl :: a₂ ∧
          (cancelledRes res res.userId now creason).status = .cancelled ∧
          (cancelledRes res res.userId now creason).cancellation =
            some { cancelledBy := res.userId, cancelledAt := now,
                   reason := creason.getD "Cancelled by user" } ∧
          (releasedDay day s₁ s₂ sl).timeSlots =
            s₁ ++ { sl with isAvailable := true, reservationId := none } :: s₂) ∧
    (res.status ≠ .pending → res.status ≠ .confirmed →
      putReservation db resId res.userId false (some .cancelled) creason now =
        .err .cannotCancel) ∧
    (∀ (doctor : Doctor) (d₁ d₂ : List Doctor),
      db.doctors = d₁ ++ doctor :: d₂ →
      (∀ x ∈ d₁, (x.userId == doctor.userId) = false) →
      res.doctorId = doctor.id →
      putReservation db resId doctor.userId true (some .cancelled) creason now =
        .err .invalidStatus) ∧
    (∀ status : Option RStatus, status ≠ some .cancelled →
      putReservation db resId res.userId false status creason now =
        .err .unauthorized) ∧
    (∀ (doctor : Doctor) (d₁ d₂ : List Doctor) (s : RStatus),
      db.doctors = d₁ ++ doctor :: d₂ →
      (∀ x ∈ d₁, (x.userId == doctor.userId) = false) →
      res.doctorId = doctor.id →
      allowedStatuses.contains s = true →
      ∃ db1,
        putReservation db resId doctor.userId true (some s) creason now =
          .ok db1 { res with status := s } ∧
        db1.availabilities = db.availabilities) := by
  have hfindr : db.reservations.find? (fun r => r.id == resId) = some res := by
    rw [hres]
    exact find?_append_cons _ _ _ _ hr₁ (by simp [hresid])
  refine ⟨?_, ?_, ?_, ?_, ?_⟩
  · -- owner cancellation succeeds and releases the slot
    intro hstat day a₁ a₂ sl s₁ s₂ hav ha₁ hdid hdate hslots hs₁ hslr
    have hterm : ¬(res.status ≠ .pending ∧ res.status ≠ .confirmed) := by
      rcases hstat with h | h <;> simp [h]
    have hdayeq : releaseSlotInDay res.id day = releasedDay day s₁ s₂ sl := by
      unfold releaseSlotInDay releasedDay
      rw [hslots, updateFirst_eq _ _ _ _ _ hs₁ (by simp [hslr])]
    have hpre : ∀ y ∈ a₁,
        (y.doctorId == res.doctorId && y.date == res.appointmentDate
          && y.timeSlots.any (fun s => s.reservationId == some res.id)) = false := by
      intro y hy
      simp [ha₁ y hy]
    have hpd : (day.doctorId == res.doctorId && day.date == res.appointmentDate
        && day.timeSlots.any (fun s => s.reservationId == some res.id)) = true := by
      simp [hdid, hdate, hslots, hslr]
    have hrelease : releaseSlotUpdate res.doctorId res.appointmentDate res.id db =
        { db with availabilities := a₁ ++ releasedDay day s₁ s₂ sl :: a₂ } := by
      unfold releaseSlotUpdate
      rw [hav, updateFirst_eq _ _ _ _ _ hpre hpd, hdayeq]
    refine ⟨saveReservation (cancelledRes res res.userId now creason)
      { db with availabilities := a₁ ++ releasedDay day s₁ s₂ sl :: a₂ },
      ?_, ?_, ?_, rfl, rfl, rfl⟩
    · simp only [putReservation, hfindr, Bool.false_eq_true, if_false, and_true, if_pos rfl,
        if_neg hterm, hrelease, if_true]
      rfl
    · show (saveReservation (cancelledRes res res.userId now creason)
        { db with availabilities := a₁ ++ releasedDay day s₁ s₂ sl :: a₂ }).reservations = _
      unfold saveReservation
      simp only []
      rw [show ({ db with availabilities := a₁ ++ releasedDay day s₁ s₂ sl :: a₂ } :
        DB).reservations = r₁ ++ res :: r₂ from hres]
      refine updateFirst_eq _ _ _ _ _ ?_ (by simp [cancelledRes, hresid])
      intro x hx
      have hcid : (cancelledRes res res.userId now creason).id = resId := hresid
      rw [hcid]
      exact hr₁ x hx
    · rfl
  · -- cancellation from in-progress or a terminal status is rejected
    intro h1 h2
    have hterm2 : res.status ≠ RStatus.pending ∧ res.status ≠ RStatus.confirmed := ⟨h1, h2⟩
    simp [putReservation, hfindr, hterm2]
  · -- a doctor-typed caller cannot cancel
    intro doctor d₁ d₂ hdocs hd₁ hassigned
    have hfindd : db.doctors.find? (fun d => d.userId == doctor.userId) = some doctor := by
      rw [hdocs]
      exact find?_append_cons _ _ _ _ hd₁ (by simp)
    simp [putReservation, hfindr, hfindd, hassigned, allowedStatuses]
  · -- an owner request with any status other than cancelled is unauthorized
    intro status hstatus
    simp [putReservation, hfindr, hstatus]
  · -- doctor status updates never touch the slot calendar
    intro doctor d₁ d₂ s hdocs hd₁ hassigned hallowed
    have hfindd : db.doctors.find? (fun d => d.userId == doctor.userId) = some doctor := by
      rw [hdocs]
      exact find?_append_cons _ _ _ _ hd₁ (by simp)
    refine ⟨saveReservation { res with status := s }
      (if s = .completed then incCompletedStats doctor.id db else db), ?_, ?_⟩
    · simp only [putReservation, hfindr, hfindd, hassigned, ne_eq, not_true_eq_false,
        if_false, if_true, hallowed]
    · show (if s = RStatus.completed then incCompletedStats doctor.id db else db).availabilities
        = db.availabilities
      by_cases hs : s = RStatus.completed
      · rw [if_pos hs]
        rfl
      · rw [if_neg hs]

/-- C6 witness: owner 20 cancelling the pending reservation 60 succeeds and
releases its claimed slot, while the assigned doctor's cancellation attempt
on the same reservation is rejected. -/
theorem C6_witness :
    (∃ db1,
      putReservation dbPend60 60 20 false (some .cancelled) none 99 =
        .ok db1 (cancelledRes resPending 20 99 none) ∧
      db1.reservations = [cancelledRes resPending 20 99 none] ∧
      db1.availabilities = [releasedDay day60 []
        [{ startTime := 570, endTime := 600, isAvailable := true, reservationId := none }]
        { startTime := 540, endTime := 570, isAvailable := false, reservationId := some 60 }]) ∧
    putReservation dbPend60 60 10 true (some .cancelled) none 99 = .err .invalidStatus := by
  have h := C6_cancellation_amended dbPend60 60 99 none resPending [] [] rfl
    (by decide) rfl
  constructor
  · obtain ⟨db1, hput, hresv, havv, -, -, -⟩ := h.1 (Or.inl rfl) day60 [] []
      { startTime := 540, endTime := 570, isAvailable := false, reservationId := some 60 }
      [] [{ startTime := 570, endTime := 600, isAvailable := true, reservationId := none }]
      rfl (by decide) rfl rfl rfl (by decide) rfl
    exact ⟨db1, hput, by simpa using hresv, by simpa using havv⟩
  · exact h.2.2.1 doctor0 [] [] rfl (by decide) rfl

/-- C8: booking an available slot and then cancelling the resulting
reservation as the owning user restores the calendar to its original state:
the slot is available again with its reservation reference cleared. -/
theorem C8_book_cancel_roundtrip
    (db : DB) (req : BookRequest) (rid now slE : Nat) (creason : Option String)
    (doctor : Doctor) (pet : Pet)
    (day : AvailabilityDay) (a₁ a₂ : List AvailabilityDay)
    (s₁ s₂ : List TimeSlot)
    (hrt : req.rtype ≠ "") (hre : req.reason ≠ "")
    (hdoc : db.doctors.find? (fun d => d.id == req.doctorId) = some doctor)
    (hact : doctor.isActive = true) (hver : doctor.isVerified = true)
    (hpet : db.pets.find?
      (fun p => p.id == req.petId && p.ownerId == req.userId && p.isActive) = some pet)
    (hav : db.availabilities = a₁ ++ day :: a₂)
    (ha₁ : ∀ y ∈ a₁, (y.doctorId == req.doctorId && y.date == req.appointmentDate) = false)
    (hdid : day.doctorId = req.doctorId) (hdate : day.date = req.appointmentDate)
    (hwork : day.isWorkingDay = true)
    (hslots : day.timeSlots = s₁ ++ mkSlot req.appointmentTime slE true none :: s₂)
    (hs₁ : ∀ s ∈ s₁, (s.startTime == req.appointmentTime) = false)
    (hia₁ : ∀ y ∈ a₁, (y.id == day.id) = false)
    (hfresh : ∀ y ∈ db.availabilities, ∀ s ∈ y.timeSlots,
      (s.reservationId == some rid) = false)
    (hfreshr : ∀ x ∈ db.reservations, (x.id == rid) = false) :
    ∃ db1 db2 db3 db4,
      bookReservation db req rid = .ok (newReservation req doctor rid) db1 db2 db3 ∧
      putReservation db3 rid req.userId false (some .cancelled) creason now =
        .ok db4 (cancelledRes (newReservation req doctor rid) req.userId now creason) ∧
      db4.availabilities = db.availabilities := by
  have hdaymem : day ∈ db.availabilities := by
    rw [hav]
    exact List.mem_append_right _ (List.mem_cons_self _ _)
  have h1 : ¬(req.rtype = "" ∨ req.reason = "") := by
    push_neg
    exact ⟨hrt, hre⟩
  have hfav : db.availabilities.find?
      (fun a => a.doctorId == req.doctorId && a.date == req.appointmentDate) = some day := by
    rw [hav]
    exact find?_append_cons _ _ _ _ ha₁ (by simp [hdid, hdate])
  have hfsl : day.timeSlots.find? (fun slot => slot.startTime == req.appointmentTime
      && slot.isAvailable && slot.reservationId.isNone) =
      some (mkSlot req.appointmentTime slE true none) := by
    rw [hslots]
    refine find?_append_cons _ _ _ _ ?_ (by simp [mkSlot])
    intro s hs
    simp [hs₁ s hs]
  have hbc : bookCheck db req = .ok { doctor := doctor, availabilityId := day.id } := by
    simp only [bookCheck, if_neg h1, hdoc, hact, hver, and_self, not_true_eq_false,
      if_false, hpet, hfav, hwork, ne_eq, not_true, hfsl]
  -- the booking and its write states
  refine ⟨saveNewReservation (newReservation req doctor rid) db,
    claimSlotUpdate day.id req.appointmentTime rid
      (saveNewReservation (newReservation req doctor rid) db),
    incTotalReservations req.doctorId (claimSlotUpdate day.id req.appointmentTime rid
      (saveNewReservation (newReservation req doctor rid) db)),
    saveReservation (cancelledRes (newReservation req doctor rid) req.userId now creason)
      (releaseSlotUpdate req.doctorId req.appointmentDate rid
        (incTotalReservations req.doctorId (claimSlotUpdate day.id req.appointmentTime rid
          (saveNewReservation (newReservation req doctor rid) db)))),
    ?_, ?_, ?_⟩
  · unfold bookReservation
    rw [hbc]
    rfl
  · -- the cancellation
    have hres3 : (incTotalReservations req.doctorId (claimSlotUpdate day.id
        req.appointmentTime rid (saveNewReservation (newReservation req doctor rid)
        db))).reservations = db.reservations ++ newReservation req doctor rid :: [] := rfl
    have hfindr3 : (incTotalReservations req.doctorId (claimSlotUpdate day.id
        req.appointmentTime rid (saveNewReservation (newReservation req doctor rid)
        db))).reservations.find? (fun r => r.id == rid) =
        some (newReservation req doctor rid) := by
      rw [hres3]
      exact find?_append_cons _ _ _ _ hfreshr (by simp [newReservation])
    have hterm : ¬((newReservation req doctor rid).status ≠ RStatus.pending ∧
        (newReservation req doctor rid).status ≠ RStatus.confirmed) := by
      simp [newReservation]
    simp only [putReservation, hfindr3, Bool.false_eq_true, if_false]
    rw [if_pos (show (newReservation req doctor rid).userId = req.userId ∧ True
      from ⟨rfl, trivial⟩)]
    rw [if_neg hterm]
    rfl
  · -- calendar fully restored
    have hav3 : (incTotalReservations req.doctorId (claimSlotUpdate day.id
        req.appointmentTime rid (saveNewReservation (newReservation req doctor rid)
        db))).availabilities =
        a₁ ++ withSlots day (s₁ ++ mkSlot req.appointmentTime slE false (some rid) :: s₂)
          :: a₂ := by
      show updateFirst _ (claimSlotInDay req.appointmentTime rid) db.availabilities = _
      have hpa₁ : ∀ y ∈ a₁,
          (y.id == day.id && y.timeSlots.any (fun s => s.startTime == req.appointmentTime))
            = false := by
        intro y hy
        simp [hia₁ y hy]
      have hpday : (day.id == day.id
          && day.timeSlots.any (fun s => s.startTime == req.appointmentTime)) = true := by
        simp [hslots, mkSlot]
      have hclaimday : claimSlotInDay req.appointmentTime rid day =
          withSlots day (s₁ ++ mkSlot req.appointmentTime slE false (some rid) :: s₂) := by
        unfold claimSlotInDay withSlots
        rw [hslots, updateFirst_eq _ _ _ _ _ hs₁ (by simp [mkSlot])]
        rfl
      rw [hav, updateFirst_eq _ _ _ _ _ hpa₁ hpday, hclaimday]
    have hsrel : ∀ s ∈ s₁, (s.reservationId == some rid) = false := by
      intro s hs
      exact hfresh day hdaymem s (by rw [hslots]; exact List.mem_append_left _ hs)
    have hdayeq : releaseSlotInDay rid
        (withSlots day (s₁ ++ mkSlot req.appointmentTime slE false (some rid) :: s₂))
        = day := by
      unfold releaseSlotInDay withSlots
      show ({ day with timeSlots := updateFirst _ _ (s₁ ++ _ :: s₂) } : AvailabilityDay) = day
      rw [updateFirst_eq _ _ _ _ _ hsrel (by simp [mkSlot])]
      show withSlots day (s₁ ++ mkSlot req.appointmentTime slE true none :: s₂) = day
      unfold withSlots
      rw [← hslots]
    have hprel₁ : ∀ y ∈ a₁,
        (y.doctorId == req.doctorId && y.date == req.appointmentDate
          && y.timeSlots.any (fun s => s.reservationId == some rid)) = false := by
      intro y hy
      have hany : y.timeSlots.any (fun s => s.reservationId == some rid) = false := by
        rw [List.any_eq_false]
        intro s hs
        simp only [hfresh y (by rw [hav]; exact List.mem_append_left _ hy) s hs]
        exact Bool.false_ne_true
      simp [hany]
    have hprelday : ((withSlots day (s₁ ++ mkSlot req.appointmentTime slE false (some rid)
            :: s₂)).doctorId == req.doctorId
        && (withSlots day (s₁ ++ mkSlot req.appointmentTime slE false (some rid)
            :: s₂)).date == req.appointmentDate
        && (withSlots day (s₁ ++ mkSlot req.appointmentTime slE false (some rid)
            :: s₂)).timeSlots.any (fun s => s.reservationId == some rid)) = true := by
      simp [hdid, hdate, mkSlot, withSlots]
    show (releaseSlotUpdate req.doctorId req.appointmentDate rid _).availabilities = _
    show updateFirst _ (releaseSlotInDay rid) _ = _
    rw [hav3, updateFirst_eq _ _ _ _ _ hprel₁ hprelday, hdayeq, ← hav]

/-- C8 witness: booking the free 09:00 slot of `day0` and cancelling the
resulting reservation restores the calendar of `db0`. -/
theorem C8_witness :
    ∃ db1 db2 db3 db4,
      bookReservation db0 req0 100 = .ok (newReservation req0 doctor0 100) db1 db2 db3 ∧
      putReservation db3 100 20 false (some .cancelled) none 99 =
        .ok db4 (cancelledRes (newReservation req0 doctor0 100) 20 99 none) ∧
      db4.availabilities = db0.availabilities :=
  C8_book_cancel_roundtrip db0 req0 100 99 570 none doctor0 pet0 day0 [] [] []
    [{ startTime := 570, endTime := 600, isAvailable := true, reservationId := none }]
    (by decide) (by decide) (by decide) (by decide) (by decide) (by decide) rfl
    (by decide) rfl rfl rfl rfl (by decide) (by decide) (by decide) (by decide)

/-! ### Invariant preservation helpers -/
theorem generateTimeSlotsAux_available (d : Nat) :
    ∀ fuel s e, ∀ sl ∈ generateTimeSlotsAux d fuel s e,
      sl.isAvailable = true ∧ sl.reservationId = none := by
  intro fuel
  induction fuel with
  | zero => intro s e sl hsl; simp [generateTimeSlotsAux] at hsl
  | succ n ih =>
    intro s e sl hsl
    rw [generateTimeSlotsAux] at hsl
    by_cases hse : s < e
    · rw [if_pos hse] at hsl
      rcases List.mem_append.mp hsl with hsl | hsl
      · by_cases hsd : s + d ≤ e
        · rw [if_pos hsd] at hsl
          rcases List.mem_singleton.mp hsl with rfl
          exact ⟨rfl, rfl⟩
        · rw [if_neg hsd] at hsl
          cases hsl
      · exact ih (s + d) e sl hsl
    · rw [if_neg hse] at hsl
      cases hsl

theorem generateTimeSlots_invariant (s e d : Nat) :
    ∀ sl ∈ generateTimeSlots s e d, slotInvariant sl := by
  intro sl hsl
  obtain ⟨h1, h2⟩ := generateTimeSlotsAux_available d (e - s) s e sl hsl
  simp [slotInvariant, h1, h2]

theorem claimSlotUpdate_invariant (avId t rid : Nat) (db : DB)
    (h : dbSlotInvariant db) : dbSlotInvariant (claimSlotUpdate avId t rid db) := by
  intro a ha
  refine updateFirst_preserves dayInvariant _ (claimSlotInDay t rid) ?_
    db.availabilities h a ha
  intro x hx s hs
  refine updateFirst_preserves slotInvariant _ _ ?_ x.timeSlots hx s hs
  intro sl _
  simp [slotInvariant]

theorem releaseSlotUpdate_invariant (did date rid : Nat) (db : DB)
    (h : dbSlotInvariant db) : dbSlotInvariant (releaseSlotUpdate did date rid db) := by
  intro a ha
  refine updateFirst_preserves dayInvariant _ (releaseSlotInDay rid) ?_
    db.availabilities h a ha
  intro x hx s hs
  refine updateFirst_preserves slotInvariant _ _ ?_ x.timeSlots hx s hs
  intro sl _
  simp [slotInvariant]

theorem saveAvailability_invariant (existing : Option AvailabilityDay)
    (day : AvailabilityDay) (db : DB) (h : dbSlotInvariant db) (hd : dayInvariant day) :
    dbSlotInvariant (saveAvailability existing day db) := by
  cases existing with
  | some a =>
    intro x hx
    exact updateFirst_preserves dayInvariant _ _ (fun y _ => hd) db.availabilities h x hx
  | none =>
    intro x hx
    rcases List.mem_append.mp hx with hx | hx
    · exact h x hx
    · rcases List.mem_singleton.mp hx with rfl
      exact hd

/-- C3 (amended): the slot invariant (a slot is unavailable exactly when it
holds a reservation reference) is preserved by slot generation, by the
availability POST whenever the caller-supplied slot list itself satisfies it
(in particular always by the generate-from-working-hours path and when no
slot list is supplied), by every write step of a booking, and by every
reservation status update or cancellation; the caller-supplied timeSlots
path, however, persists the submitted slots verbatim, so it upholds the
invariant only when the caller does. -/
theorem C3_slot_invariant_amended (db : DB) (hdb : dbSlotInvariant db) :
    (∀ s e d, ∀ sl ∈ generateTimeSlots s e d, slotInvariant sl) ∧
    (∀ uid body newId db1 day,
      (∀ sl ∈ body.timeSlots.getD [], slotInvariant sl) →
      availabilityPost db uid body newId = .ok db1 day →
      dbSlotInvariant db1) ∧
    (∀ req rid res db1 db2 db3,
      bookReservation db req rid = .ok res db1 db2 db3 →
      dbSlotInvariant db1 ∧ dbSlotInvariant db2 ∧ dbSlotInvariant db3) ∧
    (∀ resId uid isDoc status creason now db1 r,
      putReservation db resId uid isDoc status creason now = .ok db1 r →
      dbSlotInvariant db1) := by
  refine ⟨fun s e d => generateTimeSlots_invariant s e d, ?_, ?_, ?_⟩
  · -- availability POST
    intro uid body newId db1 day hbody h
    cases hd : db.doctors.find? (fun d => d.userId == uid) with
    | none => simp [availabilityPost, hd] at h
    | some doctor =>
      by_cases hg : body.generateFromWorkingHours = true ∧ body.isWorkingDay ≠ some false
      · cases hwh : doctor.workingHours.find?
            (fun wh => wh.day == body.date % 7 && wh.isAvailable) with
        | none => simp [availabilityPost, hd, if_pos hg, hwh] at h
        | some wh =>
          have hgen : ∀ sl ∈ generateTimeSlots wh.startTime wh.endTime, slotInvariant sl :=
            generateTimeSlots_invariant _ _ _
          cases he : db.availabilities.find?
              (fun a => a.doctorId == doctor.id && a.date == body.date) with
          | none =>
            simp only [availabilityPost, hd, if_pos hg, hwh, he, AvailResult.ok.injEq] at h
            obtain ⟨hdb1, -⟩ := h
            subst hdb1
            exact saveAvailability_invariant _ _ _ hdb (fun s hs => hgen s hs)
          | some a =>
            simp only [availabilityPost, hd, if_pos hg, hwh, he, AvailResult.ok.injEq] at h
            obtain ⟨hdb1, -⟩ := h
            subst hdb1
            exact saveAvailability_invariant _ _ _ hdb (fun s hs => hgen s hs)
      · cases he : db.availabilities.find?
            (fun a => a.doctorId == doctor.id && a.date == body.date) with
        | none =>
          simp only [availabilityPost, hd, if_neg hg, he, AvailResult.ok.injEq] at h
          obtain ⟨hdb1, -⟩ := h
          subst hdb1
          exact saveAvailability_invariant _ _ _ hdb (fun s hs => hbody s hs)
        | some a =>
          simp only [availabilityPost, hd, if_neg hg, he, AvailResult.ok.injEq] at h
          obtain ⟨hdb1, -⟩ := h
          subst hdb1
          exact saveAvailability_invariant _ _ _ hdb (fun s hs => hbody s hs)
  · -- booking writes
    intro req rid res db1 db2 db3 h
    cases hbc : bookCheck db req with
    | error e => simp [bookReservation, hbc] at h
    | ok c =>
      simp only [bookReservation, hbc, bookWrites, BookResult.ok.injEq] at h
      obtain ⟨-, h1, h2, h3⟩ := h
      subst h1 h2 h3
      have hi1 : dbSlotInvariant (saveNewReservation (newReservation req c.doctor rid) db) :=
        fun a ha => hdb a ha
      have hi2 : dbSlotInvariant (claimSlotUpdate c.availabilityId req.appointmentTime rid
          (saveNewReservation (newReservation req c.doctor rid) db)) :=
        claimSlotUpdate_invariant _ _ _ _ hi1
      exact ⟨hi1, hi2, fun a ha => hi2 a ha⟩
  · -- reservation PUT
    intro resId uid isDoc status creason now db1 r h
    cases hf : db.reservations.find? (fun x => x.id == resId) with
    | none => simp [putReservation, hf] at h
    | some res =>
      cases isDoc with
      | true =>
        cases hd : db.doctors.find? (fun d => d.userId == uid) with
        | none => simp [putReservation, hf, hd] at h
        | some doctor =>
          by_cases hassg : res.doctorId ≠ doctor.id
          · simp [putReservation, hf, hd, if_pos hassg] at h
          · cases status with
            | none => simp [putReservation, hf, hd, if_neg hassg] at h
            | some s =>
              by_cases hcont : allowedStatuses.contains s = true
              · simp only [putReservation, hf, hd, if_neg hassg, hcont, if_true,
                  PutResult.ok.injEq, if_false] at h
                obtain ⟨hdb1, -⟩ := h
                subst hdb1
                by_cases hs : s = RStatus.completed
                · rw [if_pos hs]
                  exact fun a ha => hdb a ha
                · rw [if_neg hs]
                  exact fun a ha => hdb a ha
              · have hcont2 : s ∉ allowedStatuses := by simpa using hcont
                simp [putReservation, hf, hd, if_neg hassg, hcont2] at h
      | false =>
        by_cases hc : res.userId = uid ∧ status = some RStatus.cancelled
        · by_cases hterm : res.status ≠ RStatus.pending ∧ res.status ≠ RStatus.confirmed
          · simp [putReservation, hf, if_pos hc, if_pos hterm] at h
          · simp only [putReservation, hf, Bool.false_eq_true, if_false, if_pos hc,
              if_neg hterm, PutResult.ok.injEq] at h
            obtain ⟨hdb1, -⟩ := h
            subst hdb1
            exact fun a ha => releaseSlotUpdate_invariant _ _ _ _ hdb a ha
        · simp [putReservation, hf, if_neg hc] at h

/-- C3 witness: the initial fixture state satisfies the invariant, generated
slots satisfy it, and so does the state right after the booking of `req0`
claims its slot. -/
theorem C3_witness :
    dbSlotInvariant db0 ∧
    (∀ sl ∈ generateTimeSlots 540 600 30, slotInvariant sl) ∧
    dbSlotInvariant (claimSlotUpdate 30 540 100
      (saveNewReservation (newReservation req0 doctor0 100) db0)) := by
  have h := C3_slot_invariant_amended db0 (by decide)
  refine ⟨by decide, fun sl hsl => h.1 540 600 30 sl hsl, ?_⟩
  have h3 := h.2.2.1 req0 100 (newReservation req0 doctor0 100)
    (saveNewReservation (newReservation req0 doctor0 100) db0)
    (claimSlotUpdate 30 540 100 (saveNewReservation (newReservation req0 doctor0 100) db0))
    (incTotalReservations 1 (claimSlotUpdate 30 540 100
      (saveNewReservation (newReservation req0 doctor0 100) db0)))
    (by decide)
  exact h3.2.1

/-! ### Decomposition helpers for the idempotence proof -/
theorem find?_none_all {α : Type} (p : α → Bool) (l : List α)
    (h : l.find? p = none) : ∀ y ∈ l, p y = false := by
  intro y hy
  have := List.find?_eq_none.mp h y hy
  simpa using this

theorem find?_decomp {α : Type} (p : α → Bool) :
    ∀ (l : List α) (x : α), l.find? p = some x →
      ∃ l₁ l₂, l = l₁ ++ x :: l₂ ∧ ∀ y ∈ l₁, p y = false := by
  intro l
  induction l with
  | nil => intro x h; simp [List.find?] at h
  | cons z zs ih =>
    intro x h
    by_cases hz : p z = true
    · rw [List.find?_cons_of_pos _ hz] at h
      injection h with h
      subst h
      exact ⟨[], zs, rfl, by intro y hy; cases hy⟩
    · rw [List.find?_cons_of_neg _ hz] at h
      obtain ⟨l₁, l₂, rfl, hl⟩ := ih x h
      refine ⟨z :: l₁, l₂, rfl, ?_⟩
      intro y hy
      rcases List.mem_cons.mp hy with rfl | hy
      · exact Bool.eq_false_iff.mpr (fun hc => hz (by rw [hc]))
      · exact hl y hy

theorem nodup_key_ne {α β : Type} (key : α → β) (l₂ : List α) (a : α) :
    ∀ l₁ : List α, ((l₁ ++ a :: l₂).map key).Nodup → ∀ y ∈ l₁, key y ≠ key a := by
  intro l₁
  induction l₁ with
  | nil => intro _ y hy; cases hy
  | cons z zs ih =>
    intro h y hy
    rw [List.cons_append, List.map_cons, List.nodup_cons] at h
    obtain ⟨hz, hrest⟩ := h
    rcases List.mem_cons.mp hy with rfl | hy
    · intro heq
      exact hz (heq ▸ List.mem_map_of_mem key
        (List.mem_append_right zs (List.mem_cons_self a l₂)))
    · exact ih hrest y hy

/-- Saving back an existing availability document unchanged leaves the state
unchanged. -/
theorem saveAvailability_found (day : AvailabilityDay) (l₁ l₂ : List AvailabilityDay)
    (db : DB) (hl : db.availabilities = l₁ ++ day :: l₂)
    (h₁ : ∀ y ∈ l₁, (y.id == day.id) = false) :
    saveAvailability (some day) day db = db := by
  have hupd : updateFirst (fun x => x.id == day.id) (fun _ => day) db.availabilities
      = db.availabilities := by
    rw [hl]
    exact updateFirst_eq _ _ _ _ _ h₁ (by simp)
  show ({ db with availabilities := updateFirst (fun x => x.id == day.id) (fun _ => day) db.availabilities } : DB) = db
  rw [hupd]

/-- Re-running the availability POST on a state whose stored day already
matches what the handler would write reproduces exactly that state. -/
theorem availabilityPost_reproduces
    (db2 : DB) (uid : Nat) (body : AvailPostBody) (newId2 : Nat)
    (doctor : Doctor) (day : AvailabilityDay) (l₁ l₂ : List AvailabilityDay)
    (hd : db2.doctors.find? (fun d => d.userId == uid) = some doctor)
    (hav : db2.availabilities = l₁ ++ day :: l₂)
    (hl₁ : ∀ y ∈ l₁, (y.doctorId == doctor.id && y.date == body.date) = false)
    (hpd : (day.doctorId == doctor.id && day.date == body.date) = true)
    (hid₁ : ∀ y ∈ l₁, (y.id == day.id) = false)
    (hbranch :
      (∃ wh, doctor.workingHours.find? (fun w => w.day == body.date % 7 && w.isAvailable)
          = some wh ∧
        (body.generateFromWorkingHours = true ∧ body.isWorkingDay ≠ some false) ∧
        day.timeSlots = generateTimeSlots wh.startTime wh.endTime ∧
        day.isWorkingDay = true ∧
        day.specialNotes = body.specialNotes.getD "") ∨
      (¬(body.generateFromWorkingHours = true ∧ body.isWorkingDay ≠ some false) ∧
        day.timeSlots = body.timeSlots.getD [] ∧
        day.isWorkingDay = body.isWorkingDay.getD true ∧
        day.specialNotes = body.specialNotes.getD "")) :
    availabilityPost db2 uid body newId2 = .ok db2 day := by
  have he2 : db2.availabilities.find?
      (fun a => a.doctorId == doctor.id && a.date == body.date) = some day := by
    rw [hav]
    exact find?_append_cons _ _ _ _ hl₁ hpd
  have hsave := saveAvailability_found day l₁ l₂ db2 hav hid₁
  obtain ⟨di, ddoc, ddate, dts, dwork, dnotes⟩ := day
  rcases hbranch with ⟨wh, hwh, hg, hT, hW, hS⟩ | ⟨hg, hT, hW, hS⟩
  · simp only at hT hW hS
    subst hT
    subst hW
    subst hS
    simp only [availabilityPost, hd, if_pos hg, hwh, he2]
    rw [AvailResult.ok.injEq]
    exact ⟨hsave, rfl⟩
  · simp only at hT hW hS
    subst hT
    subst hW
    subst hS
    simp only [availabilityPost, hd, if_neg hg, he2]
    rw [AvailResult.ok.injEq]
    exact ⟨hsave, rfl⟩

/-- C4 (amended): the ensure-day operation is idempotent only in the
state-to-state sense: re-invoking the availability POST with the same caller
and body on the state it has just produced returns exactly that state and
the same day record (the regenerated or re-supplied slot list coincides with
what was just written, and the existing record is overwritten with itself).
It is not a no-op on an existing record in general: the handler always
overwrites the record's slot list, so any slot state change made since the
record was written (such as a claimed slot) is wiped, as the counterexample
shows. -/
theorem C4_ensureDay_idempotent_amended
    (db : DB) (uid : Nat) (body : AvailPostBody) (newId newId2 : Nat)
    (db1 : DB) (day : AvailabilityDay)
    (hnodup : (db.availabilities.map (fun a => a.id)).Nodup)
    (hfresh : ∀ y ∈ db.availabilities, (y.id == newId) = false)
    (h1 : availabilityPost db uid body newId = .ok db1 day) :
    availabilityPost db1 uid body newId2 = .ok db1 day := by
  cases hd : db.doctors.find? (fun d => d.userId == uid) with
  | none => simp [availabilityPost, hd] at h1
  | some doctor =>
    by_cases hg : body.generateFromWorkingHours = true ∧ body.isWorkingDay ≠ some false
    · cases hwh : doctor.workingHours.find?
          (fun wh => wh.day == body.date % 7 && wh.isAvailable) with
      | none => simp [availabilityPost, hd, if_pos hg, hwh] at h1
      | some wh =>
        cases he : db.availabilities.find?
            (fun a => a.doctorId == doctor.id && a.date == body.date) with
        | none =>
          simp only [availabilityPost, hd, if_pos hg, hwh, he, AvailResult.ok.injEq] at h1
          obtain ⟨hdb1, hday⟩ := h1
          subst hdb1
          subst hday
          exact availabilityPost_reproduces _ uid body newId2 doctor _
            db.availabilities [] hd rfl (find?_none_all _ _ he) (by simp) hfresh
            (Or.inl ⟨wh, hwh, hg, rfl, rfl, rfl⟩)
        | some a =>
          simp only [availabilityPost, hd, if_pos hg, hwh, he, AvailResult.ok.injEq] at h1
          obtain ⟨hdb1, hday⟩ := h1
          subst hdb1
          subst hday
          obtain ⟨l₁, l₂, hleq, hl₁⟩ := find?_decomp _ db.availabilities a he
          have hid₁ : ∀ y ∈ l₁, (y.id == a.id) = false := by
            intro y hy
            have hne := nodup_key_ne (fun z => z.id) l₂ a l₁
              (by rw [← hleq]; exact hnodup) y hy
            simpa using hne
          have hpa := List.find?_some he
          refine availabilityPost_reproduces _ uid body newId2 doctor _ l₁ l₂ hd ?_ hl₁
            hpa hid₁ (Or.inl ⟨wh, hwh, hg, rfl, rfl, rfl⟩)
          show updateFirst _ _ db.availabilities = _
          rw [hleq]
          exact updateFirst_eq _ _ _ _ _ hid₁ (by simp)
    · cases he : db.availabilities.find?
          (fun a => a.doctorId == doctor.id && a.date == body.date) with
      | none =>
        simp only [availabilityPost, hd, if_neg hg, he, AvailResult.ok.injEq] at h1
        obtain ⟨hdb1, hday⟩ := h1
        subst hdb1
        subst hday
        exact availabilityPost_reproduces _ uid body newId2 doctor _
          db.availabilities [] hd rfl (find?_none_all _ _ he) (by simp) hfresh
          (Or.inr ⟨hg, rfl, rfl, rfl⟩)
      | some a =>
        simp only [availabilityPost, hd, if_neg hg, he, AvailResult.ok.injEq] at h1
        obtain ⟨hdb1, hday⟩ := h1
        subst hdb1
        subst hday
        obtain ⟨l₁, l₂, hleq, hl₁⟩ := find?_decomp _ db.availabilities a he
        have hid₁ : ∀ y ∈ l₁, (y.id == a.id) = false := by
          intro y hy
          have hne := nodup_key_ne (fun z => z.id) l₂ a l₁
            (by rw [← hleq]; exact hnodup) y hy
          simpa using hne
        have hpa := List.find?_some he
        refine availabilityPost_reproduces _ uid body newId2 doctor _ l₁ l₂ hd ?_ hl₁
          hpa hid₁ (Or.inr ⟨hg, rfl, rfl, rfl⟩)
        show updateFirst _ _ db.availabilities = _
        rw [hleq]
        exact updateFirst_eq _ _ _ _ _ hid₁ (by simp)

/-- C4 witness: generating the calendar day of `doctor0` twice in a row
yields the same state and day record both times. -/
theorem C4_witness :
    availabilityPost dbNoDays 10 bodyGen 7 = .ok dbGen dayGen ∧
    availabilityPost dbGen 10 bodyGen 8 = .ok dbGen dayGen := by
  have h1 : availabilityPost dbNoDays 10 bodyGen 7 = .ok dbGen dayGen := by decide
  exact ⟨h1, C4_ensureDay_idempotent_amended dbNoDays 10 bodyGen 7 8 dbGen dayGen
    (by decide) (by decide) h1⟩

end PetSense
